import Mathlib

/-!
Verification development for the python-a2s core (a2s/a2s_sync.py and
a2s/datacls.py): the UDP transport with single/multi-fragment reassembly,
the challenge-retry request driver, and the dataclass backport.

Byte strings are modelled as `List Nat` (each element a byte value).
Monotonic clock readings are modelled as rationals. Fallible Python code
(exceptions) is modelled with `Except A2SError`.
-/

namespace A2S

/-- `HEADER_SIMPLE = b"\xFF\xFF\xFF\xFF"` from a2s_sync.py. -/
def HEADER_SIMPLE : List Nat := [0xFF, 0xFF, 0xFF, 0xFF]

/-- `HEADER_MULTI = b"\xFE\xFF\xFF\xFF"` from a2s_sync.py. -/
def HEADER_MULTI : List Nat := [0xFE, 0xFF, 0xFF, 0xFF]

/-- `A2S_CHALLENGE_RESPONSE = 0x41` from a2s_sync.py. -/
def A2S_CHALLENGE_RESPONSE : Nat := 0x41

/-- Errors surfaced by the modelled code: `BrokenMessageError msg` carries the
Python exception message; `timeout` models `socket.timeout` (a blocking
receive with no datagram available); `readShort` models a reader underflow
(struct error inside ByteReader / decode_fragment). -/
inductive A2SError where
  | brokenMessage (msg : String)
  | timeout
  | readShort
  deriving DecidableEq, Repr

/-- A fragment record as produced by `decode_fragment`: fragment id (position),
total fragment count for the message, and the payload slice. -/
structure Fragment where
  fragment_id : Nat
  fragment_count : Nat
  payload : List Nat
  deriving DecidableEq, Repr

/-- Single lowercase hex digit character (0-9, a-f), as Python formats them. -/
def hexChar (n : Nat) : Char :=
  if n < 10 then Char.ofNat (48 + n) else Char.ofNat (87 + n)

/-- Hex digits of `n`, most significant first; `[]` for `0`. -/
def hexDigits : Nat → List Char
  | 0 => []
  | n + 1 => hexDigits ((n + 1) / 16) ++ [hexChar ((n + 1) % 16)]

/-- Python `hex(n)` for a nonnegative `n`: `0x` followed by lowercase hex
digits, `hex(0) = "0x0"`. -/
def pyHex (n : Nat) : String :=
  "0x" ++ (if n = 0 then "0" else String.mk (hexDigits n))

/-- The single-quote character, used by Python `repr` of bytes. -/
def squote : String := String.mk [Char.ofNat 39]

/-- Python `repr` of one byte inside a bytes literal: printable ASCII is shown
as itself, with backslash escapes for backslash, quote, tab, newline and
carriage return, and `\xhh` for everything else. -/
def pyByteRepr (b : Nat) : String :=
  if b = 92 then "\\\\"
  else if b = 39 then "\\" ++ squote
  else if b = 9 then "\\t"
  else if b = 10 then "\\n"
  else if b = 13 then "\\r"
  else if 32 ≤ b ∧ b < 127 then String.mk [Char.ofNat b]
  else "\\x" ++ String.mk [hexChar (b / 16 % 16), hexChar (b % 16)]

/-- Python `repr` of a bytes object, e.g. `b"\xff"` prints as a `b` followed
by the quoted escaped bytes. -/
def pyBytesRepr (bs : List Nat) : String :=
  "b" ++ squote ++ String.join (bs.map pyByteRepr) ++ squote

/-- The key order used by `fragments.sort(key=lambda f: f.fragment_id)`. -/
def fragLE (a b : Fragment) : Prop := a.fragment_id ≤ b.fragment_id

instance : DecidableRel fragLE := fun a b => Nat.decLe a.fragment_id b.fragment_id

instance : IsTotal Fragment fragLE := ⟨fun a b => Nat.le_total a.fragment_id b.fragment_id⟩

instance : IsTrans Fragment fragLE := ⟨fun _ _ _ => Nat.le_trans⟩

/-- `fragments.sort(key=lambda f: f.fragment_id)` followed by
`b"".join(fragment.payload for fragment in fragments)`: Python's `list.sort`
is a stable ascending sort by the key, modelled by the stable
`List.insertionSort` on `fragment_id`. -/
def reassemble (fragments : List Fragment) : List Nat :=
  ((List.insertionSort fragLE fragments).map Fragment.payload).flatten

/-- The double-wrap fixup in `A2SStream.recv`:
`if reassembled.startswith(b"\xFF\xFF\xFF\xFF"): reassembled = reassembled[4:]`. -/
def stripSimpleHeader (reassembled : List Nat) : List Nat :=
  if HEADER_SIMPLE.isPrefixOf reassembled then reassembled.drop 4 else reassembled

/-- The `while len(fragments) < fragments[0].fragment_count` loop of
`A2SStream.recv`: receive another datagram, decode its body after the 4-byte
header (`decode_fragment(packet[4:])`, with no check on that header), and
append, until `count` fragments are collected. `packets` is the stream of
datagrams the socket would deliver; running out models a blocking receive. -/
def collectFragments (decode : List Nat → Except A2SError Fragment)
    (count : Nat) (acc : List Fragment) (packets : List (List Nat)) :
    Except A2SError (List Fragment) :=
  if _h : acc.length < count then
    match packets with
    | [] => .error .timeout
    | packet :: rest =>
      match decode (packet.drop 4) with
      | .error e => .error e
      | .ok frag => collectFragments decode count (acc ++ [frag]) rest
  else
    .ok acc
termination_by count - acc.length
decreasing_by simp only [List.length_append, List.length_cons, List.length_nil]; omega

/-- `A2SStream.recv`, modelled over the stream of datagrams the socket
delivers for this call. The fragment decoder (`decode_fragment` from
a2s/a2s_fragment.py, outside this snapshot) is passed as a parameter; per the
spec it parses one datagram body into a `Fragment` and fails on malformed
input. The first 4 bytes select simple (return the rest unchanged), multi
(collect `fragment_count` fragments counted from the first fragment, sort by
fragment id, join payloads, strip one leading simple header), or error. -/
def recv (decode : List Nat → Except A2SError Fragment)
    (packets : List (List Nat)) : Except A2SError (List Nat) :=
  match packets with
  | [] => .error .timeout
  | packet :: rest =>
    let header := packet.take 4
    let data := packet.drop 4
    if header = HEADER_SIMPLE then
      .ok data
    else if header = HEADER_MULTI then
      match decode data with
      | .error e => .error e
      | .ok frag =>
        match collectFragments decode frag.fragment_count [frag] rest with
        | .error e => .error e
        | .ok fragments => .ok (stripSimpleHeader (reassemble fragments))
    else
      .error (.brokenMessage ("Invalid packet header: " ++ pyBytesRepr header))

/-! ### Request driver (`request_sync_impl`) -/

/-- One request/response round as the environment delivers it to
`request_sync_impl`: the monotonic clock reading just before
`conn.request(...)` (line 121), the reading just after it returns (line 123),
and the assembled response bytes `resp_data` that `conn.request` produced.
The round for retry counter value `k` is `env k`. -/
structure Attempt where
  sendTime : ℚ
  recvTime : ℚ
  resp : List Nat

/-- A protocol kind (InfoProtocol / PlayersProtocol / RulesProtocol), consumed
through the two pure capabilities the driver uses before handing off to the
deserializer. -/
structure ProtoKind where
  serialize_request : Nat → List Nat
  validate_response_type : Nat → Bool

/-- Modelled from the spec: `ByteReader.read_uint8` (a2s/byteio.py is outside
this snapshot; §6: "sequential little-endian primitive reads"). Reads one
byte, failing on an exhausted buffer. -/
def read_uint8 : List Nat → Option (Nat × List Nat)
  | [] => none
  | b :: rest => some (b, rest)

/-- Modelled from the spec: `ByteReader.read_uint32` (a2s/byteio.py is outside
this snapshot; §4.2: "read a 4-byte unsigned challenge value", little-endian
per §6). -/
def read_uint32 : List Nat → Option (Nat × List Nat)
  | b0 :: b1 :: b2 :: b3 :: rest =>
    some (b0 + 256 * b1 + 65536 * b2 + 16777216 * b3, rest)
  | _ => none

/-- The arguments `request_sync_impl` hands to the external
`a2s_proto.deserialize_response(reader, response_type, ping)`: the reader
positioned after the response-type byte, the type byte, and the ping. -/
structure Deserialized where
  reader : List Nat
  response_type : Nat
  ping : Option ℚ
  deriving DecidableEq

/-- `request_sync_impl` from a2s_sync.py, lines 108-146, with the network and
clock abstracted into `env` and the retry bound `DEFAULT_RETRIES`
(a2s/defaults.py, outside this snapshot; modelled from the spec as the fixed
"maximum challenge-retry count") kept as the parameter `maxRetries`. It
returns the trace of serialized request payloads sent (one per attempt, in
order) together with either the error raised or the `Deserialized` hand-off. -/
def request_sync_impl (env : Nat → Attempt) (a2s_proto : ProtoKind)
    (maxRetries : Nat) (challenge : Nat) (retries : Nat) (ping : Option ℚ) :
    List (List Nat) × Except A2SError Deserialized :=
  let att := env retries
  let req := a2s_proto.serialize_request challenge
  -- Only set ping on first packet received
  let ping := if retries = 0 then some (att.recvTime - att.sendTime) else ping
  match read_uint8 att.resp with
  | none => ([req], .error .readShort)
  | some (response_type, rest) =>
    if response_type = A2S_CHALLENGE_RESPONSE then
      if _hmax : maxRetries ≤ retries then
        ([req], .error (.brokenMessage "Server keeps sending challenge responses"))
      else
        match read_uint32 rest with
        | none => ([req], .error .readShort)
        | some (challenge2, _) =>
          let next :=
            request_sync_impl env a2s_proto maxRetries challenge2 (retries + 1) ping
          (req :: next.1, next.2)
    else if a2s_proto.validate_response_type response_type = false then
      ([req], .error (.brokenMessage ("Invalid response type: " ++ pyHex response_type)))
    else
      ([req], .ok ⟨rest, response_type, ping⟩)
termination_by maxRetries - retries
decreasing_by omega

/-! ### Socket lifecycle (`request_sync`, `A2SStream.close`, `A2SStream.__del__`) -/

/-- The observable state of the UDP socket owned by an `A2SStream`: whether it
has been closed. `socket.socket(...)` yields an open socket. -/
structure SocketState where
  closed : Bool
  deriving DecidableEq, Repr

namespace A2SStream

/-- `A2SStream.close`: `self._socket.close()`. Closing an already-closed
Python socket is a no-op, so the model just sets the flag. -/
def close (s : SocketState) : SocketState := { s with closed := true }

/-- `A2SStream.__del__`: calls `self.close()`. -/
def del (s : SocketState) : SocketState := close s

end A2SStream

/-- The resource paths of `request_sync` (a2s_sync.py lines 58-69), with the
protocol exchange abstracted as its outcome `impl`. The function constructs
an `A2SStream` (socket open), runs `request_sync_impl`, and on the normal
path calls `conn.close()` explicitly; when the exchange raises (timeout or
protocol error) the exception propagates and the local `conn` is torn down at
frame exit, where CPython reference counting runs `A2SStream.__del__`, which
closes the socket. Teardown of the local also follows the explicit close on
the normal path. Returns the call outcome and the final socket state. -/
def request_sync (α : Type) (impl : Except A2SError α) :
    Except A2SError α × SocketState :=
  let conn : SocketState := ⟨false⟩
  match impl with
  | .ok response => (.ok response, A2SStream.del (A2SStream.close conn))
  | .error e => (.error e, A2SStream.del conn)

/-! ### The dataclass backport (a2s/datacls.py) -/

/-- A Python object reference: an identity (`objId`, standing for the object's
address) together with the value it holds. Two references alias exactly when
their `objId`s coincide. -/
structure Obj (α : Type) where
  objId : Nat
  val : α
  deriving DecidableEq, Repr

/-- `copy.copy(x)`: a shallow copy — a freshly allocated object (new identity)
holding the same value. -/
def pycopy {α : Type} (fresh : Nat) (x : Obj α) : Obj α := ⟨fresh, x.val⟩

/-- `DataclsMeta.__new__` (datacls.py lines 37-52): walk the class annotations
in declaration order and record, per field name, the class-variable default
when one was declared, else Python `None` (`noneObj`). The result is the
`_defaults` ordered dict. -/
def mkDefaults {α : Type} (annotations : List String)
    (classVars : String → Option (Obj α)) (noneObj : Obj α) :
    List (String × Obj α) :=
  annotations.map fun name => (name, (classVars name).getD noneObj)

/-- `DataclsBase.__init__` (datacls.py lines 21-25): for each entry of
`_defaults` in order, take the keyword argument when the name is present in
`kwargs`, else the stored default, and `setattr` a `copy.copy` of it. Fresh
object identities produced by the copies are modelled as `freshBase + i` for
the `i`-th field. Keyword names outside `_defaults` are never consulted. -/
def dataclsInit {α : Type} (defaults : List (String × Obj α))
    (kwargs : String → Option (Obj α)) (freshBase : Nat) :
    List (String × Obj α) :=
  defaults.enum.map fun p => (p.2.1, pycopy (freshBase + p.1) ((kwargs p.2.1).getD p.2.2))

/-! ### Concrete fixtures used by witness theorems -/

/-- A concrete protocol kind: requests are a tag byte plus the low challenge
byte; the only accepted response type is 0x49. -/
def protoW : ProtoKind := ⟨fun c => [0x54, c % 256], fun t => t == 0x49⟩

/-- Environment whose every response is a challenge response with value 2. -/
def envC1 : Nat → Attempt := fun _ => ⟨0, 1, [0x41, 2, 0, 0, 0, 9]⟩

/-- Environment answering immediately with an accepted payload. -/
def envC2 : Nat → Attempt := fun _ => ⟨2, 5, [0x49, 9]⟩

/-- The deserializer hand-off produced by `envC2`. -/
def deserW : Deserialized := ⟨[9], 0x49, some 3⟩

/-- Environment answering with a response type rejected by `protoW`. -/
def envC8 : Nat → Attempt := fun _ => ⟨0, 1, [0x62, 3]⟩

/-- A fragment decoder reading the fragment id from the first body byte, with
a declared total of 2 fragments and the remaining bytes as payload. -/
def decodeW : List Nat → Except A2SError Fragment :=
  fun bs => .ok ⟨bs.headD 0, 2, bs.tail⟩

/-- A degenerate fragment decoder whose fragments declare a total of 0. -/
def decodeZero : List Nat → Except A2SError Fragment :=
  fun _ => .ok ⟨0, 0, [7]⟩

/-- Annotation list of a concrete two-field dataclass. -/
def annW : List String := ["a", "b"]

/-- Class-variable defaults of the concrete dataclass: field "a" has a
declared default, field "b" has none. -/
def classVarsW : String → Option (Obj Nat) := fun n => if n = "a" then some ⟨0, 7⟩ else none

/-- The Python `None` object used when no default was declared. -/
def noneObjW : Obj Nat := ⟨1, 0⟩

/-- Keyword arguments supplying field "b" only. -/
def kwargsW : String → Option (Obj Nat) := fun n => if n = "b" then some ⟨2, 5⟩ else none

/-- Empty keyword arguments. -/
def kwargs2W : String → Option (Obj Nat) := fun _ => none

/-! ## Theorems

First the transport (`A2SStream.recv`) claims, then the request driver
claims, then socket lifecycle and the dataclass backport. -/

/-- Claim C3: for every received datagram whose first 4 bytes equal the simple
marker 0xFFFFFFFF, `recv` returns exactly the datagram's bytes after those 4
header bytes, with no other modification. -/
theorem recv_simple_exact (decode : List Nat → Except A2SError Fragment)
    (packet : List Nat) (rest : List (List Nat))
    (h : packet.take 4 = HEADER_SIMPLE) :
    recv decode (packet :: rest) = .ok (packet.drop 4) := by
  rw [recv]
  simp [h]

/-- Witness for C3 at a concrete datagram. -/
theorem recv_simple_exact_witness :
    ([0xFF, 0xFF, 0xFF, 0xFF, 1, 2] : List Nat).take 4 = HEADER_SIMPLE ∧
    recv decodeZero [[0xFF, 0xFF, 0xFF, 0xFF, 1, 2]] = .ok [1, 2] :=
  ⟨by decide, recv_simple_exact decodeZero [0xFF, 0xFF, 0xFF, 0xFF, 1, 2] [] (by decide)⟩

/-- Claim C4: for fragment multisets with pairwise distinct fragment ids,
reassembly (sort by ascending fragment id, concatenate payloads, strip a
doubled simple header) is invariant under the arrival order of the
fragments. -/
theorem reassemble_perm_invariant (l1 l2 : List Fragment) (hperm : l1.Perm l2)
    (hids : (l1.map Fragment.fragment_id).Nodup) :
    stripSimpleHeader (reassemble l1) = stripSimpleHeader (reassemble l2) := by
  have hp1 : (List.insertionSort fragLE l1).Perm l1 := List.perm_insertionSort fragLE l1
  have hp2 : (List.insertionSort fragLE l2).Perm l2 := List.perm_insertionSort fragLE l2
  have hs1 : (List.insertionSort fragLE l1).Sorted fragLE := List.sorted_insertionSort fragLE l1
  have hs2 : (List.insertionSort fragLE l2).Sorted fragLE := List.sorted_insertionSort fragLE l2
  have hp12 : (List.insertionSort fragLE l1).Perm (List.insertionSort fragLE l2) :=
    (hp1.trans hperm).trans hp2.symm
  have hn1 : ((List.insertionSort fragLE l1).map Fragment.fragment_id).Nodup :=
    ((hp1.map Fragment.fragment_id).nodup_iff).mpr hids
  have hn2 : ((List.insertionSort fragLE l2).map Fragment.fragment_id).Nodup :=
    ((hp12.map Fragment.fragment_id).nodup_iff).mp hn1
  have hlt1 : (List.insertionSort fragLE l1).Pairwise
      (fun a b => a.fragment_id < b.fragment_id) :=
    (List.Pairwise.and hs1 (List.pairwise_map.mp hn1)).imp
      fun h => Nat.lt_of_le_of_ne h.1 h.2
  have hlt2 : (List.insertionSort fragLE l2).Pairwise
      (fun a b => a.fragment_id < b.fragment_id) :=
    (List.Pairwise.and hs2 (List.pairwise_map.mp hn2)).imp
      fun h => Nat.lt_of_le_of_ne h.1 h.2
  haveI : IsAntisymm Fragment (fun a b => a.fragment_id < b.fragment_id) :=
    ⟨fun a b h1 h2 => absurd h1 (Nat.lt_asymm h2)⟩
  have heq : List.insertionSort fragLE l1 = List.insertionSort fragLE l2 :=
    List.eq_of_perm_of_sorted hp12 hlt1 hlt2
  unfold reassemble
  rw [heq]

/-- Witness for C4: two fragments delivered in either order reassemble to the
same buffer. -/
theorem reassemble_perm_invariant_witness :
    (([⟨2, 3, [5]⟩, ⟨0, 3, [1]⟩] : List Fragment).Perm [⟨0, 3, [1]⟩, ⟨2, 3, [5]⟩]) ∧
    stripSimpleHeader (reassemble [⟨2, 3, [5]⟩, ⟨0, 3, [1]⟩]) =
      stripSimpleHeader (reassemble [⟨0, 3, [1]⟩, ⟨2, 3, [5]⟩]) :=
  ⟨List.Perm.swap _ _ _,
   reassemble_perm_invariant _ _ (List.Perm.swap _ _ _) (by decide)⟩

/-- When the collection loop of `A2SStream.recv` terminates normally starting
from an accumulator no longer than the declared count, the collected list has
exactly `count` fragments. -/
theorem collectFragments_length (decode : List Nat → Except A2SError Fragment) :
    ∀ (packets : List (List Nat)) (count : Nat) (acc frags : List Fragment),
      acc.length ≤ count →
      collectFragments decode count acc packets = .ok frags →
      frags.length = count := by
  intro packets
  induction packets with
  | nil =>
    intro count acc frags hle hok
    rw [collectFragments] at hok
    split at hok
    · simp at hok
    · simp only [Except.ok.injEq] at hok
      subst hok
      omega
  | cons p rest ih =>
    intro count acc frags hle hok
    rw [collectFragments] at hok
    split at hok
    · rename_i hlt
      cases hd : decode (p.drop 4) with
      | error e => rw [hd] at hok; simp at hok
      | ok frag =>
        rw [hd] at hok
        simp only at hok
        exact ih count (acc ++ [frag]) frags (by simp; omega) hok
    · rename_i hge
      simp only [Except.ok.injEq] at hok
      subst hok
      omega

/-- Claim C5 (amended): for a multi-packet response whose first fragment
declares a fragment count of at least 1, a buffer is only yielded after
collecting exactly `fragment_count` fragments — the count being read off the
first fragment received, whatever its fragment id — and the buffer is the
id-sorted concatenation of their payloads (with the doubled-header fixup); no
partial buffer is ever returned. -/
theorem recv_multi_collects_all (decode : List Nat → Except A2SError Fragment)
    (packet : List Nat) (rest : List (List Nat)) (f0 : Fragment) (buf : List Nat)
    (hh : packet.take 4 = HEADER_MULTI)
    (hd : decode (packet.drop 4) = .ok f0)
    (hc : 1 ≤ f0.fragment_count)
    (hr : recv decode (packet :: rest) = .ok buf) :
    ∃ frags, collectFragments decode f0.fragment_count [f0] rest = .ok frags ∧
      frags.length = f0.fragment_count ∧
      (List.insertionSort fragLE frags).Sorted fragLE ∧
      buf = stripSimpleHeader (reassemble frags) := by
  rw [recv] at hr
  simp only [hh, if_neg (show ¬ HEADER_MULTI = HEADER_SIMPLE by decide),
    if_pos (show HEADER_MULTI = HEADER_MULTI from rfl), hd] at hr
  cases hcol : collectFragments decode f0.fragment_count [f0] rest with
  | error e => rw [hcol] at hr; simp at hr
  | ok frags =>
    rw [hcol] at hr
    simp only [if_true, Except.ok.injEq] at hr
    exact ⟨frags, rfl, collectFragments_length decode rest f0.fragment_count [f0] frags
      (by simpa using hc) hcol, List.sorted_insertionSort fragLE frags, hr.symm⟩

/-- Counterexample to claim C5 as stated: a first fragment declaring
`fragment_count = 0` still yields a buffer, but the collected fragment list
has length 1, not the declared count 0 — the loop guard
`len(fragments) < fragments[0].fragment_count` is satisfied from the start,
so the single received fragment is kept. -/
theorem recv_multi_count_zero_cex :
    recv decodeZero [[0xFE, 0xFF, 0xFF, 0xFF]] = .ok [7] ∧
    collectFragments decodeZero 0 [⟨0, 0, [7]⟩] [] = .ok [⟨0, 0, [7]⟩] ∧
    ¬ ([(⟨0, 0, [7]⟩ : Fragment)].length = (0 : Nat)) := by
  refine ⟨?_, ?_, by simp⟩
  · rw [recv]
    simp only [decodeZero]
    rw [if_neg (by decide), if_pos (by decide)]
    rw [collectFragments]
    simp [reassemble, stripSimpleHeader, fragLE, HEADER_SIMPLE]
  · rw [collectFragments]
    simp

/-- Witness for C5 (amended) on a concrete two-fragment response delivered
out of order. -/
theorem recv_multi_collects_all_witness :
    ∃ frags, collectFragments decodeW 2 [⟨1, 2, [20]⟩] [[0, 0, 0, 0, 0, 10]] = .ok frags ∧
      frags.length = 2 ∧
      (List.insertionSort fragLE frags).Sorted fragLE ∧
      [10, 20] = stripSimpleHeader (reassemble frags) := by
  have hr : recv decodeW [[0xFE, 0xFF, 0xFF, 0xFF, 1, 20], [0, 0, 0, 0, 0, 10]] =
      .ok [10, 20] := by
    simp [recv, collectFragments, decodeW, reassemble, stripSimpleHeader, fragLE,
      HEADER_SIMPLE, HEADER_MULTI, List.insertionSort, List.orderedInsert]
  have := recv_multi_collects_all decodeW [0xFE, 0xFF, 0xFF, 0xFF, 1, 20]
    [[0, 0, 0, 0, 0, 10]] ⟨1, 2, [20]⟩ [10, 20] rfl rfl (by decide) hr
  simpa using this

/-- Claim C6: a reassembled buffer beginning with the 4-byte simple-header
marker has exactly those 4 bytes removed exactly once; a buffer not beginning
with the marker is returned untouched. -/
theorem strip_simple_header_once (b : List Nat) :
    (∀ t, b = HEADER_SIMPLE ++ t → stripSimpleHeader b = t) ∧
    ((∀ t, b ≠ HEADER_SIMPLE ++ t) → stripSimpleHeader b = b) := by
  constructor
  · rintro t rfl
    rw [stripSimpleHeader, if_pos (by simp [List.isPrefixOf_iff_prefix])]
    simp [HEADER_SIMPLE]
  · intro hno
    rw [stripSimpleHeader, if_neg]
    intro hpre
    obtain ⟨t, ht⟩ := List.isPrefixOf_iff_prefix.mp hpre
    exact hno t ht.symm

/-- Witness for C6: a double-wrapped buffer loses one marker only, and a
marker-free buffer is untouched. -/
theorem strip_simple_header_once_witness :
    stripSimpleHeader [0xFF, 0xFF, 0xFF, 0xFF, 0xFF, 0xFF, 0xFF, 0xFF, 9] =
      [0xFF, 0xFF, 0xFF, 0xFF, 9] ∧
    stripSimpleHeader [1, 2] = [1, 2] :=
  ⟨(strip_simple_header_once _).1 [0xFF, 0xFF, 0xFF, 0xFF, 9] (by decide),
   (strip_simple_header_once _).2 (by intro t h; simp [HEADER_SIMPLE] at h)⟩

/-- Claim C7: a datagram whose first 4 bytes are neither the simple nor the
multi marker (including datagrams shorter than 4 bytes) makes `recv` raise a
`BrokenMessageError` identifying the offending header bytes, returning no
buffer. -/
theorem recv_bad_header (decode : List Nat → Except A2SError Fragment)
    (packet : List Nat) (rest : List (List Nat))
    (h1 : packet.take 4 ≠ HEADER_SIMPLE) (h2 : packet.take 4 ≠ HEADER_MULTI) :
    recv decode (packet :: rest) =
      .error (.brokenMessage ("Invalid packet header: " ++ pyBytesRepr (packet.take 4))) := by
  rw [recv]
  rw [if_neg h1, if_neg h2]

/-- Witness for C7 at a one-byte datagram. -/
theorem recv_bad_header_witness :
    recv decodeZero [[0xFE]] =
      .error (.brokenMessage ("Invalid packet header: " ++ pyBytesRepr [0xFE])) := by
  have := recv_bad_header decodeZero [0xFE] [] (by decide) (by decide)
  simpa using this

/-! ### Request driver lemmas -/

/-- One unfolding of the driver when the response is not a challenge: the
call stops after a single request, raising on a rejected type byte and
handing off to the deserializer on an accepted one. -/
theorem request_sync_impl_stop (env : Nat → Attempt) (proto : ProtoKind)
    (maxRetries challenge retries : Nat) (ping : Option ℚ) (t : Nat) (rest : List Nat)
    (hresp : (env retries).resp = t :: rest) (ht : t ≠ 0x41) :
    request_sync_impl env proto maxRetries challenge retries ping =
      ([proto.serialize_request challenge],
       if proto.validate_response_type t = false then
         .error (.brokenMessage ("Invalid response type: " ++ pyHex t))
       else
         .ok ⟨rest, t,
           if retries = 0 then some ((env retries).recvTime - (env retries).sendTime)
           else ping⟩) := by
  rw [request_sync_impl]
  simp only [hresp, read_uint8]
  rw [if_neg (by simpa [A2S_CHALLENGE_RESPONSE] using ht)]
  by_cases hv : proto.validate_response_type t = false <;> simp [hv]

/-- One unfolding of the driver on a challenge response below the retry
bound: one more request is sent, carrying the received challenge value. -/
theorem request_sync_impl_challenge_step (env : Nat → Attempt) (proto : ProtoKind)
    (maxRetries challenge retries : Nat) (ping : Option ℚ) (rest : List Nat)
    (c2 : Nat) (r2 : List Nat)
    (hresp : (env retries).resp = 0x41 :: rest)
    (h32 : read_uint32 rest = some (c2, r2))
    (hlt : retries < maxRetries) :
    request_sync_impl env proto maxRetries challenge retries ping =
      (proto.serialize_request challenge ::
        (request_sync_impl env proto maxRetries c2 (retries + 1)
          (if retries = 0 then some ((env retries).recvTime - (env retries).sendTime)
           else ping)).1,
       (request_sync_impl env proto maxRetries c2 (retries + 1)
          (if retries = 0 then some ((env retries).recvTime - (env retries).sendTime)
           else ping)).2) := by
  rw [request_sync_impl]
  simp only [hresp, read_uint8, h32, A2S_CHALLENGE_RESPONSE, if_pos rfl]
  rw [dif_neg (by omega)]
  simp

/-- One unfolding of the driver on a challenge response at or above the retry
bound: the challenge-loop error is raised without another request. -/
theorem request_sync_impl_max_step (env : Nat → Attempt) (proto : ProtoKind)
    (maxRetries challenge retries : Nat) (ping : Option ℚ)
    (hresp : (env retries).resp.head? = some 0x41)
    (hge : maxRetries ≤ retries) :
    request_sync_impl env proto maxRetries challenge retries ping =
      ([proto.serialize_request challenge],
       .error (.brokenMessage "Server keeps sending challenge responses")) := by
  rcases hr : (env retries).resp with _ | ⟨t, rest⟩
  · rw [hr] at hresp; simp at hresp
  · rw [hr] at hresp
    simp only [List.head?] at hresp
    rw [request_sync_impl]
    simp only [hr, read_uint8]
    have h : t = 0x41 := by injection hresp
    rw [if_pos (by simp [h, A2S_CHALLENGE_RESPONSE]), dif_pos hge]

/-- Every attempt's request trace starts with the request serialized with the
current challenge value. -/
theorem request_sync_impl_trace_head (env : Nat → Attempt) (proto : ProtoKind)
    (maxRetries challenge retries : Nat) (ping : Option ℚ) :
    (request_sync_impl env proto maxRetries challenge retries ping).1.head? =
      some (proto.serialize_request challenge) := by
  rw [request_sync_impl]
  cases hu : read_uint8 (env retries).resp with
  | none => rfl
  | some p =>
    rcases p with ⟨t, rest⟩
    simp only
    split
    · split
      · rfl
      · cases h32 : read_uint32 rest with
        | none => rfl
        | some q => rfl
    · split
      · rfl
      · rfl

/-- A response whose head byte is the challenge tag and whose length is at
least 5 decomposes into the tag and the 4 challenge bytes. -/
theorem resp_shape (l : List Nat) (hh : l.head? = some 0x41) (hl : 5 ≤ l.length) :
    ∃ b0 b1 b2 b3 r, l = 0x41 :: b0 :: b1 :: b2 :: b3 :: r := by
  rcases l with _ | ⟨a, _ | ⟨b0, _ | ⟨b1, _ | ⟨b2, _ | ⟨b3, r⟩⟩⟩⟩⟩ <;> simp_all

/-- Once the retry counter is positive, no later round of the recursion ever
changes the ping value delivered to the deserializer. -/
theorem ping_frozen_aux (env : Nat → Attempt) (proto : ProtoKind) :
    ∀ (n maxRetries challenge retries : Nat) (ping : Option ℚ) (d : Deserialized),
      maxRetries - retries ≤ n → 1 ≤ retries →
      (request_sync_impl env proto maxRetries challenge retries ping).2 = .ok d →
      d.ping = ping := by
  intro n
  induction n with
  | zero =>
    intro maxRetries challenge retries ping d hn hr hok
    rcases hresp : (env retries).resp with _ | ⟨t, rest⟩
    · rw [request_sync_impl] at hok
      simp [hresp, read_uint8] at hok
    · by_cases ht : t = 0x41
      · subst ht
        rw [request_sync_impl_max_step env proto maxRetries challenge retries ping
          (by rw [hresp]; rfl) (by omega)] at hok
        simp at hok
      · rw [request_sync_impl_stop env proto maxRetries challenge retries ping t rest hresp ht]
          at hok
        by_cases hv : proto.validate_response_type t = false
        · simp [hv] at hok
        · simp [hv] at hok
          rw [← hok]
          simp [if_neg (by omega : ¬ retries = 0)]
  | succ n ih =>
    intro maxRetries challenge retries ping d hn hr hok
    rcases hresp : (env retries).resp with _ | ⟨t, rest⟩
    · rw [request_sync_impl] at hok
      simp [hresp, read_uint8] at hok
    · by_cases ht : t = 0x41
      · subst ht
        by_cases hge : maxRetries ≤ retries
        · rw [request_sync_impl_max_step env proto maxRetries challenge retries ping
            (by rw [hresp]; rfl) hge] at hok
          simp at hok
        · cases h32 : read_uint32 rest with
          | none =>
            rw [request_sync_impl] at hok
            simp [hresp, read_uint8, h32, A2S_CHALLENGE_RESPONSE, dif_neg hge] at hok
          | some q =>
            rcases q with ⟨c2, r2⟩
            rw [request_sync_impl_challenge_step env proto maxRetries challenge retries ping
              rest c2 r2 hresp h32 (by omega)] at hok
            have := ih maxRetries c2 (retries + 1)
              (if retries = 0 then some ((env retries).recvTime - (env retries).sendTime)
               else ping) d (by omega) (by omega) hok
            rwa [if_neg (by omega : ¬ retries = 0)] at this
      · rw [request_sync_impl_stop env proto maxRetries challenge retries ping t rest hresp ht]
          at hok
        by_cases hv : proto.validate_response_type t = false
        · simp [hv] at hok
        · simp [hv] at hok
          rw [← hok]
          simp [if_neg (by omega : ¬ retries = 0)]

/-- When every remaining attempt up to the bound is answered with a
well-formed challenge response, the call ends in the challenge-loop error
after exactly one request per remaining attempt. -/
theorem challenge_loop_aux (env : Nat → Attempt) (proto : ProtoKind) :
    ∀ (n maxRetries challenge retries : Nat) (ping : Option ℚ),
      maxRetries - retries = n → retries ≤ maxRetries →
      (∀ k, retries ≤ k → k ≤ maxRetries →
        (env k).resp.head? = some 0x41 ∧ 5 ≤ (env k).resp.length) →
      (request_sync_impl env proto maxRetries challenge retries ping).2 =
        .error (.brokenMessage "Server keeps sending challenge responses") ∧
      (request_sync_impl env proto maxRetries challenge retries ping).1.length = n + 1 := by
  intro n
  induction n with
  | zero =>
    intro maxRetries challenge retries ping hn hle hall
    have hsh := hall retries (Nat.le_refl _) hle
    rw [request_sync_impl_max_step env proto maxRetries challenge retries ping hsh.1 (by omega)]
    simp
  | succ n ih =>
    intro maxRetries challenge retries ping hn hle hall
    have hsh := hall retries (Nat.le_refl _) (by omega)
    obtain ⟨b0, b1, b2, b3, r, hresp⟩ := resp_shape _ hsh.1 hsh.2
    have h32 : read_uint32 (b0 :: b1 :: b2 :: b3 :: r) =
        some (b0 + 256 * b1 + 65536 * b2 + 16777216 * b3, r) := rfl
    rw [request_sync_impl_challenge_step env proto maxRetries challenge retries ping
      (b0 :: b1 :: b2 :: b3 :: r) _ r hresp h32 (by omega)]
    have := ih maxRetries (b0 + 256 * b1 + 65536 * b2 + 16777216 * b3) (retries + 1)
      (if retries = 0 then some ((env retries).recvTime - (env retries).sendTime) else ping)
      (by omega) (by omega) (fun k hk1 hk2 => hall k (by omega) hk2)
    simp [this.1, this.2]

/-- Claim C1: a challenge response with value C causes exactly one retried
request serialized with challenge C, and when every response up to the retry
bound is again a challenge response, the (maxRetries+1)-th challenge response
raises the challenge-loop broken-message error after exactly maxRetries+1
requests — never silent truncation. -/
theorem challenge_retry_bounded (env : Nat → Attempt) (proto : ProtoKind)
    (maxRetries challenge : Nat) :
    (∀ b0 b1 b2 b3 r, 1 ≤ maxRetries →
      (env 0).resp = 0x41 :: b0 :: b1 :: b2 :: b3 :: r →
      ((request_sync_impl env proto maxRetries challenge 0 none).1[1]? =
         some (proto.serialize_request (b0 + 256 * b1 + 65536 * b2 + 16777216 * b3)) ∧
       (∀ t rest2, (env 1).resp = t :: rest2 → t ≠ 0x41 →
         (request_sync_impl env proto maxRetries challenge 0 none).1 =
           [proto.serialize_request challenge,
            proto.serialize_request (b0 + 256 * b1 + 65536 * b2 + 16777216 * b3)]))) ∧
    ((∀ k, k ≤ maxRetries →
        (env k).resp.head? = some 0x41 ∧ 5 ≤ (env k).resp.length) →
      ((request_sync_impl env proto maxRetries challenge 0 none).2 =
         .error (.brokenMessage "Server keeps sending challenge responses") ∧
       (request_sync_impl env proto maxRetries challenge 0 none).1.length =
         maxRetries + 1)) := by
  constructor
  · intro b0 b1 b2 b3 r hmax hresp
    have h32 : read_uint32 (b0 :: b1 :: b2 :: b3 :: r) =
        some (b0 + 256 * b1 + 65536 * b2 + 16777216 * b3, r) := rfl
    have hstep := request_sync_impl_challenge_step env proto maxRetries challenge 0 none
      (b0 :: b1 :: b2 :: b3 :: r) _ r hresp h32 (by omega)
    constructor
    · rw [hstep]
      simp only [List.getElem?_cons_succ]
      rw [← List.head?_eq_getElem?]
      exact request_sync_impl_trace_head env proto maxRetries _ 1 _
    · intro t rest2 hresp1 ht
      rw [hstep]
      rw [(request_sync_impl_stop env proto maxRetries _ 1 _ t rest2 hresp1 ht)]
  · intro hall
    exact challenge_loop_aux env proto maxRetries maxRetries challenge 0 none (by omega)
      (by omega) (fun k hk1 hk2 => hall k hk2)

/-- Witness for C1: with a retry bound of 1 and a server that always sends
challenge value 2, the second request carries challenge 2 and the call fails
with the challenge-loop error after 2 requests. -/
theorem challenge_retry_bounded_witness :
    (request_sync_impl envC1 protoW 1 0 0 none).1[1]? =
      some (protoW.serialize_request 2) ∧
    (request_sync_impl envC1 protoW 1 0 0 none).2 =
      .error (.brokenMessage "Server keeps sending challenge responses") ∧
    (request_sync_impl envC1 protoW 1 0 0 none).1.length = 2 :=
  ⟨(by simpa using
      ((challenge_retry_bounded envC1 protoW 1 0).1 2 0 0 0 [9] (by decide) rfl).1),
   (challenge_retry_bounded envC1 protoW 1 0).2 (by decide)⟩

/-- Claim C2: the ping delivered to the deserializer is computed exactly once,
from the send/receive pair of the first attempt (retries = 0), and challenge
retries within the same logical call never change it. -/
theorem ping_first_attempt (env : Nat → Attempt) (proto : ProtoKind)
    (maxRetries challenge : Nat) :
    (∀ d, (request_sync_impl env proto maxRetries challenge 0 none).2 = .ok d →
       d.ping = some ((env 0).recvTime - (env 0).sendTime)) ∧
    (∀ challenge2 retries ping d, 1 ≤ retries →
       (request_sync_impl env proto maxRetries challenge2 retries ping).2 = .ok d →
       d.ping = ping) := by
  constructor
  · intro d hok
    rcases hresp : (env 0).resp with _ | ⟨t, rest⟩
    · rw [request_sync_impl] at hok
      simp [hresp, read_uint8] at hok
    · by_cases ht : t = 0x41
      · subst ht
        by_cases hge : maxRetries ≤ 0
        · rw [request_sync_impl_max_step env proto maxRetries challenge 0 none
            (by rw [hresp]; rfl) hge] at hok
          simp at hok
        · cases h32 : read_uint32 rest with
          | none =>
            rw [request_sync_impl] at hok
            simp only [hresp, read_uint8, h32, A2S_CHALLENGE_RESPONSE] at hok
            rw [if_pos trivial, dif_neg hge] at hok
            simp at hok
          | some q =>
            rcases q with ⟨c2, r2⟩
            rw [request_sync_impl_challenge_step env proto maxRetries challenge 0 none
              rest c2 r2 hresp h32 (by omega)] at hok
            simpa using ping_frozen_aux env proto maxRetries maxRetries c2 1 _ d
              (by omega) (by omega) hok
      · rw [request_sync_impl_stop env proto maxRetries challenge 0 none t rest hresp ht]
          at hok
        by_cases hv : proto.validate_response_type t = false
        · simp [hv] at hok
        · simp [hv] at hok
          rw [← hok]
  · intro challenge2 retries ping d hr hok
    exact ping_frozen_aux env proto (maxRetries - retries) maxRetries challenge2 retries
      ping d (by omega) hr hok

/-- Witness for C2 on a call answered immediately: the hand-off carries the
first attempt's receive-minus-send time. -/
theorem ping_first_attempt_witness :
    (request_sync_impl envC2 protoW 5 0 0 none).2 = .ok deserW ∧
    deserW.ping = some ((envC2 0).recvTime - (envC2 0).sendTime) := by
  have hp : (request_sync_impl envC2 protoW 5 0 0 none).2 = .ok deserW := by
    rw [request_sync_impl]
    norm_num [envC2, read_uint8, protoW, deserW, A2S_CHALLENGE_RESPONSE]
  exact ⟨hp, (ping_first_attempt envC2 protoW 5 0).1 deserW hp⟩

/-- Claim C8: a response whose first byte is neither the challenge tag nor
accepted by the protocol kind's validator raises a broken-message error
reporting that byte in hexadecimal, and the deserializer is never invoked. -/
theorem invalid_type_error (env : Nat → Attempt) (proto : ProtoKind)
    (maxRetries challenge retries : Nat) (ping : Option ℚ) (t : Nat) (rest : List Nat)
    (hresp : (env retries).resp = t :: rest) (ht : t ≠ 0x41)
    (hv : proto.validate_response_type t = false) :
    request_sync_impl env proto maxRetries challenge retries ping =
      ([proto.serialize_request challenge],
       .error (.brokenMessage ("Invalid response type: " ++ pyHex t))) ∧
    (∀ d, (request_sync_impl env proto maxRetries challenge retries ping).2 ≠ .ok d) := by
  have h1 : request_sync_impl env proto maxRetries challenge retries ping =
      ([proto.serialize_request challenge],
       .error (.brokenMessage ("Invalid response type: " ++ pyHex t))) := by
    rw [request_sync_impl_stop env proto maxRetries challenge retries ping t rest hresp ht]
    simp [hv]
  exact ⟨h1, by rw [h1]; simp⟩

/-- Witness for C8: response type 0x62 is rejected by `protoW` and surfaces
as the hexadecimal broken-message error. -/
theorem invalid_type_error_witness :
    request_sync_impl envC8 protoW 5 0 0 none =
      ([protoW.serialize_request 0],
       .error (.brokenMessage ("Invalid response type: " ++ pyHex 0x62))) :=
  (invalid_type_error envC8 protoW 5 0 0 none 0x62 [3] rfl (by decide) (by decide)).1

/-- Claim C9: `close()` is idempotent, and on every exit path of a
`request_sync` call — normal return or raised exchange error — the socket has
been released by the time the `Transport` is torn down. -/
theorem close_idempotent_and_released :
    (∀ s : SocketState, A2SStream.close (A2SStream.close s) = A2SStream.close s) ∧
    (∀ (α : Type) (impl : Except A2SError α), (request_sync α impl).2.closed = true) := by
  constructor
  · intro s; rfl
  · intro α impl
    cases impl <;> rfl

/-! ### Dataclass backport lemmas -/

/-- Element lookup in the `_defaults` table built by `DataclsMeta.__new__`. -/
theorem mkDefaults_getElem {α : Type} (ann : List String)
    (classVars : String → Option (Obj α)) (noneObj : Obj α) (i : Nat) :
    (mkDefaults ann classVars noneObj)[i]? =
      ann[i]?.map fun name => (name, (classVars name).getD noneObj) := by
  unfold mkDefaults
  exact List.getElem?_map _ _ _

/-- Element lookup in the field list assigned by `DataclsBase.__init__`. -/
theorem dataclsInit_getElem {α : Type} (dfl : List (String × Obj α))
    (kwargs : String → Option (Obj α)) (fb i : Nat) :
    (dataclsInit dfl kwargs fb)[i]? =
      dfl[i]?.map fun p => (p.1, pycopy (fb + i) ((kwargs p.1).getD p.2)) := by
  unfold dataclsInit
  rw [List.getElem?_map, List.getElem?_enum]
  cases dfl[i]? <;> rfl

/-- Every field object produced by one construction has an identity inside
the construction's fresh-allocation range. -/
theorem dataclsInit_objId_range {α : Type} (dfl : List (String × Obj α))
    (kwargs : String → Option (Obj α)) (fb : Nat) (name : String) (o : Obj α)
    (hmem : (name, o) ∈ dataclsInit dfl kwargs fb) :
    fb ≤ o.objId ∧ o.objId < fb + dfl.length := by
  obtain ⟨i, hi⟩ := List.mem_iff_getElem?.mp hmem
  rw [dataclsInit_getElem] at hi
  cases hd : dfl[i]? with
  | none => rw [hd] at hi; simp at hi
  | some p =>
    rw [hd] at hi
    have hlen : i < dfl.length := (List.getElem?_eq_some.mp hd).1
    injection hi with hi2
    have hsnd : pycopy (fb + i) ((kwargs p.1).getD p.2) = o := congrArg Prod.snd hi2
    rw [← hsnd]
    show fb ≤ fb + i ∧ fb + i < fb + dfl.length
    omega

/-- Claim C10: constructing a `DataclsMeta` class assigns every annotated
field in declaration order — the keyword value when supplied, else the
declared class default, else None — always through a shallow copy with a
fresh object identity, so no default is ever shared between two instances,
and keyword arguments whose names are not annotated fields are silently
ignored. -/
theorem datacls_init_fields (α : Type) (ann : List String)
    (classVars : String → Option (Obj α)) (noneObj : Obj α)
    (kwargs kwargs2 : String → Option (Obj α)) (fb fb2 : Nat) :
    ((dataclsInit (mkDefaults ann classVars noneObj) kwargs fb).map Prod.fst = ann) ∧
    (∀ i, (dataclsInit (mkDefaults ann classVars noneObj) kwargs fb)[i]? =
        ann[i]?.map fun name =>
          (name,
           (⟨fb + i, ((kwargs name).getD ((classVars name).getD noneObj)).val⟩ : Obj α))) ∧
    (∀ name o, (name, o) ∈ dataclsInit (mkDefaults ann classVars noneObj) kwargs fb →
      fb ≤ o.objId ∧ o.objId < fb + ann.length) ∧
    (fb + ann.length ≤ fb2 →
      ∀ name o name2 o2,
        (name, o) ∈ dataclsInit (mkDefaults ann classVars noneObj) kwargs fb →
        (name2, o2) ∈ dataclsInit (mkDefaults ann classVars noneObj) kwargs2 fb2 →
        o.objId ≠ o2.objId) ∧
    ((∀ name, name ∈ ann → kwargs name = kwargs2 name) →
      dataclsInit (mkDefaults ann classVars noneObj) kwargs fb =
        dataclsInit (mkDefaults ann classVars noneObj) kwargs2 fb) := by
  have hrange : ∀ (kw : String → Option (Obj α)) (base : Nat) (name : String) (o : Obj α),
      (name, o) ∈ dataclsInit (mkDefaults ann classVars noneObj) kw base →
      base ≤ o.objId ∧ o.objId < base + ann.length := by
    intro kw base name o hmem
    have h := dataclsInit_objId_range (mkDefaults ann classVars noneObj) kw base name o hmem
    simpa [mkDefaults] using h
  refine ⟨?_, ?_, hrange kwargs fb, ?_, ?_⟩
  · apply List.ext_getElem?
    intro i
    rw [List.getElem?_map, dataclsInit_getElem, mkDefaults_getElem]
    cases ann[i]? <;> rfl
  · intro i
    rw [dataclsInit_getElem, mkDefaults_getElem]
    cases ann[i]? <;> rfl
  · intro hfb name o name2 o2 h1 h2
    have r1 := hrange kwargs fb name o h1
    have r2 := hrange kwargs2 fb2 name2 o2 h2
    omega
  · intro hag
    apply List.ext_getElem?
    intro i
    rw [dataclsInit_getElem, mkDefaults_getElem, dataclsInit_getElem, mkDefaults_getElem]
    cases hann : ann[i]? with
    | none => rfl
    | some name =>
      have hmem : name ∈ ann := List.mem_iff_getElem?.mpr ⟨i, hann⟩
      simp only [Option.map]
      rw [hag name hmem]

/-- Witness for C10 on a concrete two-field class: field names come out in
order, and instances built with disjoint fresh ranges share no object. -/
theorem datacls_init_fields_witness :
    ((dataclsInit (mkDefaults annW classVarsW noneObjW) kwargsW 10).map Prod.fst = annW) ∧
    ((⟨10, 7⟩ : Obj Nat).objId ≠ (⟨20, 7⟩ : Obj Nat).objId) :=
  ⟨(datacls_init_fields Nat annW classVarsW noneObjW kwargsW kwargs2W 10 20).1,
   (datacls_init_fields Nat annW classVarsW noneObjW kwargsW kwargs2W 10 20).2.2.2.1
     (by decide) "a" ⟨10, 7⟩ "a" ⟨20, 7⟩ (by decide) (by decide)⟩

end A2S
